import Mathlib

/-!
Shallow embedding of the FileFlicker incremental filesystem scanner
(`src/server/services/fileScanner.ts`, batch version) together with the
slice of the catalog storage layer it drives (`src/server/storage.ts`,
`src/shared/schema.ts`).  Filesystem reality is a read-only oracle (`FS`),
the relational catalog is an explicit record (`DB`), the scanner's
in-memory fields (`currentScanJob`, `deletedFiles`, `emptyDirectories`)
live in `St`, and fallible storage writes consume a fault oracle so that
thrown storage errors and the `try`/`catch`/`finally` structure of the
source are visible in the embedding.
-/

set_option autoImplicit false

namespace FileFlicker

/-! ## Node `path` helpers (posix semantics used by the scanner) -/

/-- Index of the last occurrence of `c`, if any. -/
def lastIdxOf (c : Char) : List Char → Option Nat
  | [] => none
  | a :: rest =>
    match lastIdxOf c rest with
    | some i => some (i + 1)
    | none => if a == c then some 0 else none

/-- Node `path.basename` restricted to paths without trailing slashes
(the only shape the scanner produces). -/
def baseNameOf (s : String) : String :=
  match lastIdxOf '/' s.data with
  | none => s
  | some i => ⟨s.data.drop (i + 1)⟩

/-- Position of the extension dot inside a basename: the last `.` unless it
is the leading character (Node treats `.bashrc` as extensionless). -/
def extSplitIdx (b : List Char) : Option Nat :=
  match lastIdxOf '.' b with
  | none => none
  | some 0 => none
  | some i => some i

/-- Node `path.extname`. -/
def extnameOf (s : String) : String :=
  let b := (baseNameOf s).data
  match extSplitIdx b with
  | none => ""
  | some i => ⟨b.drop i⟩

/-- Node `path.parse(p).name`: basename without its extension. -/
def parseNameOf (s : String) : String :=
  let b := (baseNameOf s).data
  match extSplitIdx b with
  | none => ⟨b⟩
  | some i => ⟨b.take i⟩

/-- Node `path.dirname`. -/
def dirnameOf (s : String) : String :=
  match lastIdxOf '/' s.data with
  | none => "."
  | some 0 => "/"
  | some i => ⟨s.data.take i⟩

/-- Node `path.join(dir, name)` for the clean inputs the scanner produces
(no `..`, no empty entry names); ends-with-slash is checked on the
character list. -/
def pathJoin (dir name : String) : String :=
  if dir = "" then name
  else if dir.data.getLast? == some '/' then dir ++ name
  else dir ++ "/" ++ name

/-- JS `String.prototype.toLowerCase` for the ASCII names the scanner
compares. -/
def toLowerStr (s : String) : String := ⟨s.data.map Char.toLower⟩

/-- JS `String.prototype.startsWith`: `strStartsWith s t` is `s.startsWith(t)`. -/
def strStartsWith (s t : String) : Bool := t.data.isPrefixOf s.data

/-! ## JS object model for `Date`

A JS `Date` is an object: strict (in)equality `===`/`!==` between two
`Date`s compares references, never instants.  `DateV.time` is the stored
epoch instant, `DateV.ref` the object identity.  A record freshly loaded
from storage and a fresh `fs.Stats` always carry distinct `ref`s. -/

structure DateV where
  time : Nat
  ref : Nat
deriving DecidableEq

/-- models `existingFile.modifiedAt !== info.stats.mtime` in
`fileScanner.ts:389`: JS strict inequality between a nullable `Date` and a
`Date`; `null !== d` is `true`, and two `Date` objects are `!==` exactly
when they are distinct objects. -/
def jsDateNeq : Option DateV → DateV → Bool
  | none, _ => true
  | some d0, d => !(d0.ref == d.ref)

/-! ## Filesystem oracle -/

/-- `fs.Stats` slice used by the scanner. -/
structure Stats where
  size : Nat
  mtime : DateV
  isDir : Bool
deriving DecidableEq

/-- `fs.Dirent` slice used by the scanner. -/
structure Dirent where
  name : String
  isFile : Bool
  isDir : Bool
deriving DecidableEq

/-- Read-only disk oracle: `none` on `stat`/`readdir` means the call throws
(`fs.access` throwing is `access = false`). -/
structure FS where
  access : String → Bool
  stat : String → Option Stats
  readdir : String → Option (List Dirent)

/-! ## Catalog records (`src/shared/schema.ts`) -/

structure FileRec where
  id : String
  name : String
  path : String
  directoryId : String
  type : String
  extension : String
  size : Nat
  modifiedAt : Option DateV
  hasSubtitles : Bool
  subtitlePaths : List String
deriving DecidableEq

structure DirRec where
  id : String
  name : String
  path : String
  parentId : Option String
  fileCount : Nat
  totalSize : Nat
deriving DecidableEq

structure ScanJobRec where
  id : String
  status : String
  progress : Nat
  error : Option String
deriving DecidableEq

/-- The relational catalog; `nextId` models `gen_random_uuid()` id
allocation. -/
structure DB where
  dirs : List DirRec
  files : List FileRec
  jobs : List ScanJobRec
  nextId : Nat
deriving DecidableEq

def idOf (n : Nat) : String := "id-" ++ toString n

/-- The `InsertFile` payload built by the scanner (`fileScanner.ts:392`). -/
structure InsertFileData where
  name : String
  path : String
  directoryId : String
  type : String
  extension : String
  size : Nat
  modifiedAt : DateV
  hasSubtitles : Bool
  subtitlePaths : List String
deriving DecidableEq

def applyFileData (id : String) (d : InsertFileData) : FileRec :=
  { id := id, name := d.name, path := d.path, directoryId := d.directoryId,
    type := d.type, extension := d.extension, size := d.size,
    modifiedAt := some d.modifiedAt, hasSubtitles := d.hasSubtitles,
    subtitlePaths := d.subtitlePaths }

/-! ## Scanner state and fault oracle

Storage writes in the source are awaited database calls that may throw.
Each write pops one Bool from the fault oracle; `true` means the call
throws.  An exhausted oracle means every remaining call succeeds. -/

structure St where
  currentScanJob : Option String
  deletedFiles : List String
  emptyDirectories : List String
  db : DB
  faults : List Bool
deriving DecidableEq

def popFault (st : St) : Bool × St :=
  match st.faults with
  | [] => (false, st)
  | b :: r => (b, { st with faults := r })

/-! ## Catalog Store operations (`src/server/storage.ts`; reads are modelled
as infallible, writes consume the fault oracle) -/

def getDirectoryByPath (db : DB) (p : String) : Option DirRec :=
  db.dirs.find? (fun d => d.path == p)

def getAllFiles (db : DB) : List FileRec := db.files

/-- Modelled from the spec: `storage.getFilesByPaths` (not under `src/`;
spec section 4.4 step 2: bulk fetch of existing File records by path set). -/
def getFilesByPaths (db : DB) (paths : List String) : List FileRec :=
  db.files.filter (fun f => paths.contains f.path)

/-- The `existingFileMap` lookup (`fileScanner.ts:378`); the map is keyed by
path, and paths are unique in the store, so first-match lookup is exact. -/
def lookupExistingFile (existing : List FileRec) (p : String) : Option FileRec :=
  existing.find? (fun f => f.path == p)

/-- Modelled from the spec: `storage.getEmptyDirectories` (not under `src/`;
spec sections 4.3 and 4.4: directories with zero direct files and zero child
directories recorded in the catalog). -/
def getEmptyDirectoriesStore (db : DB) : List DirRec :=
  db.dirs.filter (fun d =>
    db.files.all (fun f => !(f.directoryId == d.id)) &&
    db.dirs.all (fun c => !(c.parentId == some d.id)))

def createScanJobOp (status : String) (progress : Nat) (st : St) :
    Except (String × St) (ScanJobRec × St) :=
  let p := popFault st
  if p.1 then .error ("storage failure", p.2)
  else
    let j : ScanJobRec :=
      { id := idOf p.2.db.nextId, status := status, progress := progress, error := none }
    .ok (j, { p.2 with db := { p.2.db with jobs := p.2.db.jobs ++ [j], nextId := p.2.db.nextId + 1 } })

/-- Partial-update payload for `updateScanJob`. -/
structure ScanJobUpdate where
  status : Option String := none
  progress : Option Nat := none
  error : Option String := none

def applyScanJobUpdate (u : ScanJobUpdate) (j : ScanJobRec) : ScanJobRec :=
  { j with status := u.status.getD j.status,
           progress := u.progress.getD j.progress,
           error := match u.error with | some e => some e | none => j.error }

def updateScanJobOp (id : String) (u : ScanJobUpdate) (st : St) : Except (String × St) St :=
  let p := popFault st
  if p.1 then .error ("storage failure", p.2)
  else .ok { p.2 with db :=
    { p.2.db with jobs := p.2.db.jobs.map (fun j => if j.id == id then applyScanJobUpdate u j else j) } }

def createDirectoryOp (name path : String) (parentId : Option String) (st : St) :
    Except (String × St) (DirRec × St) :=
  let p := popFault st
  if p.1 then .error ("storage failure", p.2)
  else
    let d : DirRec :=
      { id := idOf p.2.db.nextId, name := name, path := path, parentId := parentId,
        fileCount := 0, totalSize := 0 }
    .ok (d, { p.2 with db := { p.2.db with dirs := p.2.db.dirs ++ [d], nextId := p.2.db.nextId + 1 } })

/-- `storage.updateDirectory(id, { fileCount, totalSize })`; the drizzle
update on an absent id updates no row and does not throw. -/
def updateDirectoryStatsOp (id : String) (fileCount totalSize : Nat) (st : St) :
    Except (String × St) St :=
  let p := popFault st
  if p.1 then .error ("storage failure", p.2)
  else .ok { p.2 with db :=
    { p.2.db with dirs := p.2.db.dirs.map (fun d =>
        if d.id == id then { d with fileCount := fileCount, totalSize := totalSize } else d) } }

def allocFiles (nextId : Nat) : List InsertFileData → List FileRec
  | [] => []
  | d :: rest => applyFileData (idOf nextId) d :: allocFiles (nextId + 1) rest

/-- Modelled from the spec: `storage.batchCreateFiles` (not under `src/`;
spec section 4.3: batch insert of all entries). -/
def batchCreateFilesOp (datas : List InsertFileData) (st : St) : Except (String × St) St :=
  let p := popFault st
  if p.1 then .error ("storage failure", p.2)
  else .ok { p.2 with db :=
    { p.2.db with files := p.2.db.files ++ allocFiles p.2.db.nextId datas,
                  nextId := p.2.db.nextId + datas.length } }

/-- Modelled from the spec: `storage.batchUpdateFiles` (not under `src/`;
spec section 4.3: batch update by id of all entries). -/
def batchUpdateFilesOp (pairs : List (String × InsertFileData)) (st : St) :
    Except (String × St) St :=
  let p := popFault st
  if p.1 then .error ("storage failure", p.2)
  else .ok { p.2 with db :=
    { p.2.db with files := pairs.foldl (fun fs pr =>
        fs.map (fun f => if f.id == pr.1 then applyFileData f.id pr.2 else f)) p.2.db.files } }

/-- Modelled from the spec: `storage.batchDeleteFiles` (not under `src/`;
spec section 4.3: delete by id set, missing ids silently ignored). -/
def batchDeleteFilesOp (ids : List String) (st : St) : Except (String × St) St :=
  let p := popFault st
  if p.1 then .error ("storage failure", p.2)
  else .ok { p.2 with db :=
    { p.2.db with files := p.2.db.files.filter (fun f => !(ids.contains f.id)) } }

/-- Modelled from the spec: `storage.batchDeleteDirectories` (not under
`src/`; spec section 4.3: delete by id set, missing ids silently ignored). -/
def batchDeleteDirectoriesOp (ids : List String) (st : St) : Except (String × St) St :=
  let p := popFault st
  if p.1 then .error ("storage failure", p.2)
  else .ok { p.2 with db :=
    { p.2.db with dirs := p.2.db.dirs.filter (fun d => !(ids.contains d.id)) } }

/-! ## File Classifier (`fileScanner.ts:440`) -/

def videoExts : List String := [".mp4", ".avi", ".mkv", ".mov", ".wmv", ".flv", ".webm", ".m4v"]
def imageExts : List String := [".jpg", ".jpeg", ".png", ".gif", ".bmp", ".webp", ".tiff", ".svg"]
def audioExts : List String := [".mp3", ".wav", ".flac", ".aac", ".ogg", ".wma", ".m4a"]
def docExts : List String := [".pdf", ".doc", ".docx", ".txt", ".rtf", ".xls", ".xlsx", ".ppt", ".pptx"]

def getFileType (extension : String) : String :=
  if videoExts.contains extension then "video"
  else if imageExts.contains extension then "image"
  else if audioExts.contains extension then "audio"
  else if docExts.contains extension then "document"
  else "other"

/-! ## Subtitle Matcher (`fileScanner.ts:454`) -/

def subtitleExts : List String := [".srt", ".vtt", ".ass", ".ssa", ".sub"]

/-- The accumulation loop over the directory listing in
`findSubtitleFiles` (`fileScanner.ts:464`). -/
def subtitleScanLoop (directory baseName : String) : List String → List String
  | [] => []
  | file :: rest =>
    let ext := toLowerStr (extnameOf file)
    if subtitleExts.contains ext then
      if strStartsWith (parseNameOf file) baseName then
        pathJoin directory file :: subtitleScanLoop directory baseName rest
      else subtitleScanLoop directory baseName rest
    else subtitleScanLoop directory baseName rest

/-- `findSubtitleFiles(videoPath)`: a failed `fs.readdir` is caught and the
accumulated (empty) list returned. -/
def findSubtitleFiles (fs : FS) (videoPath : String) : List String :=
  let baseName := parseNameOf videoPath
  let directory := dirnameOf videoPath
  match fs.readdir directory with
  | none => []
  | some entries => subtitleScanLoop directory baseName (entries.map (fun e => e.name))

/-! ## Batch file processing (`fileScanner.ts:347`) -/

structure FileInfo where
  name : String
  fullPath : String
  stats : Stats
  extension : String
  fileType : String
deriving DecidableEq

/-- The stat-collection loop (`fileScanner.ts:354`): a failed stat logs and
skips the entry. -/
def collectFileInfos (fs : FS) (dirPath : String) (fileEntries : List Dirent) : List FileInfo :=
  fileEntries.filterMap (fun e =>
    match fs.stat (pathJoin dirPath e.name) with
    | none => none
    | some stats =>
      some { name := e.name, fullPath := pathJoin dirPath e.name, stats := stats,
             extension := toLowerStr (extnameOf e.name),
             fileType := getFileType (toLowerStr (extnameOf e.name)) })

/-- The `fileData` payload built for a dirty entry (`fileScanner.ts:392`),
including the subtitle lookup for video files. -/
def mkFileData (fs : FS) (directoryId : String) (info : FileInfo) : InsertFileData :=
  let base : InsertFileData :=
    { name := info.name, path := info.fullPath, directoryId := directoryId,
      type := info.fileType, extension := info.extension, size := info.stats.size,
      modifiedAt := info.stats.mtime, hasSubtitles := false, subtitlePaths := [] }
  if info.fileType == "video" then
    let subtitlePaths := findSubtitleFiles fs info.fullPath
    { base with hasSubtitles := decide (0 < subtitlePaths.length),
                subtitlePaths := subtitlePaths }
  else base

structure BatchPlan where
  filesToCreate : List InsertFileData
  filesToUpdate : List (String × InsertFileData)
  fileCount : Nat
  totalSize : Nat
deriving DecidableEq

/-- One iteration of the partition loop (`fileScanner.ts:387`): JS `!==` on
`Date` objects decides dirtiness, then counters advance for every statted
entry. -/
def planStep (fs : FS) (existing : List FileRec) (directoryId : String)
    (acc : BatchPlan) (info : FileInfo) : BatchPlan :=
  let existingFile := lookupExistingFile existing info.fullPath
  let needsUpdate :=
    match existingFile with
    | none => true
    | some f => jsDateNeq f.modifiedAt info.stats.mtime
  let acc1 :=
    if needsUpdate then
      let fileData := mkFileData fs directoryId info
      match existingFile with
      | some f => { acc with filesToUpdate := acc.filesToUpdate ++ [(f.id, fileData)] }
      | none => { acc with filesToCreate := acc.filesToCreate ++ [fileData] }
    else acc
  { acc1 with fileCount := acc1.fileCount + 1, totalSize := acc1.totalSize + info.stats.size }

def planBatch (fs : FS) (existing : List FileRec) (directoryId : String)
    (infos : List FileInfo) : BatchPlan :=
  infos.foldl (planStep fs existing directoryId)
    { filesToCreate := [], filesToUpdate := [], fileCount := 0, totalSize := 0 }

/-- `batchProcessFiles(entries, dirPath, directoryId)`: early return on zero
file entries and on zero statted entries, then batch lookup, partition, the
two batch writes, and the directory-stats update.  Storage errors
propagate to the caller (`scanDirectory`'s catch). -/
def batchProcessFiles (fs : FS) (entries : List Dirent) (dirPath directoryId : String)
    (st : St) : Except (String × St) St :=
  let fileEntries := entries.filter (fun e => e.isFile)
  if fileEntries.length == 0 then .ok st
  else
    let fileInfos := collectFileInfos fs dirPath fileEntries
    if fileInfos.length == 0 then .ok st
    else
      let filePaths := fileInfos.map (fun i => i.fullPath)
      let existingFiles := getFilesByPaths st.db filePaths
      let plan := planBatch fs existingFiles directoryId fileInfos
      let step1 :=
        if plan.filesToCreate.length == 0 then Except.ok st
        else batchCreateFilesOp plan.filesToCreate st
      match step1 with
      | .error e => .error e
      | .ok st1 =>
        let step2 :=
          if plan.filesToUpdate.length == 0 then Except.ok st1
          else batchUpdateFilesOp plan.filesToUpdate st1
        match step2 with
        | .error e => .error e
        | .ok st2 => updateDirectoryStatsOp directoryId plan.fileCount plan.totalSize st2

/-! ## Recursive traversal (`fileScanner.ts:316`)

`scanDirectory` catches every error at its own level, so it is total; the
recursion is bounded by a fuel argument (the real recursion is bounded by
the directory tree depth).  `scanJobId` is threaded but unused, as in the
source. -/

def scanDirectory : Nat → FS → String → String → Option String → St → St
  | 0, _, _, _, _, st => st
  | Nat.succ fuel, fs, dirPath, scanJobId, parentId, st =>
    match fs.readdir dirPath with
    | none => st
    | some entries =>
      let dirStep :=
        match getDirectoryByPath st.db dirPath with
        | some d => Except.ok (d, st)
        | none => createDirectoryOp (baseNameOf dirPath) dirPath parentId st
      match dirStep with
      | .error e => e.2
      | .ok (directory, st1) =>
        let st2 := entries.foldl (fun s e =>
          if e.isDir then scanDirectory fuel fs (pathJoin dirPath e.name) scanJobId (some directory.id) s
          else s) st1
        match batchProcessFiles fs entries dirPath directory.id st2 with
        | .error e => e.2
        | .ok st3 => st3

/-! ## Detection sweeps (`fileScanner.ts:482` and `fileScanner.ts:539`) -/

/-- The accumulation loop of `checkForDeletedFiles`: push the id of every
catalog file whose `fs.access` throws. -/
def deletedSweepLoop (fs : FS) : List FileRec → List String → List String
  | [], acc => acc
  | f :: rest, acc =>
    if fs.access f.path then deletedSweepLoop fs rest acc
    else deletedSweepLoop fs rest (acc ++ [f.id])

/-- `checkForDeletedFiles`: resets the tracking list, then rebuilds it from
the whole catalog; it performs no deletion. -/
def checkForDeletedFiles (fs : FS) (st : St) : St :=
  { st with deletedFiles := deletedSweepLoop fs (getAllFiles st.db) [] }

/-- The per-candidate on-disk check of `checkForEmptyDirectories`
(`fileScanner.ts:547`): a throwing `stat` or a throwing `readdir` lands in
the catch that pushes the id. -/
def emptyDirOnDiskCheck (fs : FS) (p : String) : Bool :=
  match fs.stat p with
  | none => true
  | some stats =>
    if !stats.isDir then true
    else
      match fs.readdir p with
      | none => true
      | some files => files.length == 0

def emptySweepLoop (fs : FS) : List DirRec → List String → List String
  | [], acc => acc
  | d :: rest, acc =>
    if emptyDirOnDiskCheck fs d.path then emptySweepLoop fs rest (acc ++ [d.id])
    else emptySweepLoop fs rest acc

/-- `checkForEmptyDirectories`: resets the tracking list, then rebuilds it
from the structural-leaf candidates. -/
def checkForEmptyDirectories (fs : FS) (st : St) : St :=
  { st with emptyDirectories := emptySweepLoop fs (getEmptyDirectoriesStore st.db) [] }

/-! ## Getters and cleanup (`fileScanner.ts:509` and `fileScanner.ts:517`) -/

def getDeletedFiles (st : St) : List String := st.deletedFiles

def getEmptyDirectories (st : St) : List String := st.emptyDirectories

/-- The removal loop of the cleanup operations: `indexOf` + `splice`
removes the first occurrence of each requested id, skipping absent ids. -/
def eraseIds (tracked : List String) : List String → List String
  | [] => tracked
  | id :: rest => eraseIds (tracked.erase id) rest

/-- `cleanupDeletedFiles(fileIds)`: early return on an empty list; a
batch-delete failure re-throws before the tracking list is touched. -/
def cleanupDeletedFiles (fileIds : List String) (st : St) : Except (String × St) St :=
  if fileIds.length == 0 then .ok st
  else
    match batchDeleteFilesOp fileIds st with
    | .error e => .error e
    | .ok st1 => .ok { st1 with deletedFiles := eraseIds st1.deletedFiles fileIds }

/-- `cleanupEmptyDirectories(directoryIds)`, same structure. -/
def cleanupEmptyDirectories (directoryIds : List String) (st : St) : Except (String × St) St :=
  if directoryIds.length == 0 then .ok st
  else
    match batchDeleteDirectoriesOp directoryIds st with
    | .error e => .error e
    | .ok st1 => .ok { st1 with emptyDirectories := eraseIds st1.emptyDirectories directoryIds }

/-! ## startScan (`fileScanner.ts:273`) -/

def clearGuard (st : St) : St := { st with currentScanJob := none }

/-- `startScan(directory)`.  The error result carries the post-call state so
the `finally` clearing of the guard is observable on the throwing paths;
an error thrown by the `updateScanJob` in the `catch` replaces the original
error, as in JS. -/
def startScan (fuel : Nat) (fs : FS) (directory : String) (st : St) :
    Except (String × St) St :=
  match st.currentScanJob with
  | some _ => .error ("Scan already in progress", st)
  | none =>
    if !fs.access directory then .error ("Directory not accessible: " ++ directory, st)
    else
      match createScanJobOp "scanning" 0 st with
      | .error e => .error e
      | .ok (scanJob, st1) =>
        let st2 := { st1 with currentScanJob := some scanJob.id }
        let st3 := scanDirectory fuel fs directory scanJob.id none st2
        let st4 := checkForDeletedFiles fs st3
        let st5 := checkForEmptyDirectories fs st4
        match updateScanJobOp scanJob.id { status := some "completed", progress := some 100 } st5 with
        | .ok st6 => .ok (clearGuard st6)
        | .error e =>
          match updateScanJobOp scanJob.id { status := some "error", error := some e.1 } e.2 with
          | .ok st7 => .error (e.1, clearGuard st7)
          | .error e2 => .error (e2.1, clearGuard e2.2)

/-- State reached by a call, on both the normal and the throwing path. -/
def resultSt : Except (String × St) St → St
  | .ok st => st
  | .error e => e.2

/-! ## Heap model for the getter copies

`getDeletedFiles`/`getEmptyDirectories` return `[...list]`, a freshly
allocated array with the same elements.  A tiny heap of arrays (indexed by
allocation order) makes the aliasing claim statable: the scanner's internal
array sits at some reference, the getter allocates a new one. -/

def heapGet (h : List (List String)) (r : Nat) : List String := h.getD r []

def heapSet (h : List (List String)) (r : Nat) (v : List String) : List (List String) :=
  h.set r v

/-- models `return [...this.deletedFiles]`: allocate a fresh array holding a
copy of the internal array's elements. -/
def getDeletedFilesAlloc (deletedRef : Nat) (h : List (List String)) :
    Nat × List (List String) :=
  (h.length, h ++ [heapGet h deletedRef])

/-- models `return [...this.emptyDirectories]`. -/
def getEmptyDirectoriesAlloc (emptyRef : Nat) (h : List (List String)) :
    Nat × List (List String) :=
  (h.length, h ++ [heapGet h emptyRef])

/-! ## Spec-side definitions (written from the claims' words, for
refinement-style comparison with the code-side definitions above) -/

/-- Claim C8's selection predicate: lowercase extension in the fixed
subtitle set and base name having the video's base name as a prefix. -/
def specSubtitleMatch (baseName file : String) : Bool :=
  subtitleExts.contains (toLowerStr (extnameOf file)) && strStartsWith (parseNameOf file) baseName

/-- Claim C8's description of `findSubtitles`: filter the containing
directory's listing, in listing order; empty on a read error. -/
def specFindSubtitles (fs : FS) (videoPath : String) : List String :=
  match fs.readdir (dirnameOf videoPath) with
  | none => []
  | some entries =>
    ((entries.map (fun e => e.name)).filter (specSubtitleMatch (parseNameOf videoPath))).map
      (pathJoin (dirnameOf videoPath))

/-- Claim C5's description of the deleted-file sweep result: ids of File
records whose stored path fails the disk existence check. -/
def specDeletedIds (fs : FS) (db : DB) : List String :=
  (db.files.filter (fun f => !fs.access f.path)).map (fun f => f.id)

/-- Claim C6's three qualifying on-disk conditions: the path no longer
exists, or exists but is not a directory, or is a directory whose listing
has zero entries. -/
def specEmptyOnDisk (fs : FS) (p : String) : Bool :=
  match fs.stat p with
  | none => true
  | some stats =>
    if !stats.isDir then true
    else
      match fs.readdir p with
      | none => false
      | some files => files.length == 0

/-- Claim C6's description of the empty-directory sweep result. -/
def specEmptyIds (fs : FS) (db : DB) : List String :=
  ((getEmptyDirectoriesStore db).filter (fun d => specEmptyOnDisk fs d.path)).map (fun d => d.id)

/-- Amended C6 condition: a candidate also qualifies when it is a directory
whose listing cannot be read (the listing failure lands in the catch that
records the candidate). -/
def specEmptyOnDiskAmended (fs : FS) (p : String) : Bool :=
  specEmptyOnDisk fs p ||
    (match fs.stat p, fs.readdir p with
     | some stats, none => stats.isDir
     | _, _ => false)

/-- Amended C6 sweep result. -/
def specEmptyIdsAmended (fs : FS) (db : DB) : List String :=
  ((getEmptyDirectoriesStore db).filter (fun d => specEmptyOnDiskAmended fs d.path)).map
    (fun d => d.id)

/-! ## Shared lemmas -/

theorem subtitleScanLoop_eq_filter (directory baseName : String) (names : List String) :
    subtitleScanLoop directory baseName names =
      (names.filter (specSubtitleMatch baseName)).map (pathJoin directory) := by
  induction names with
  | nil => rfl
  | cons file rest ih =>
    by_cases hext : toLowerStr (extnameOf file) ∈ subtitleExts
    · by_cases hpre : strStartsWith (parseNameOf file) baseName = true
      · simp [subtitleScanLoop, List.filter_cons, specSubtitleMatch, hext, hpre, ih]
      · simp [subtitleScanLoop, List.filter_cons, specSubtitleMatch, hext, hpre, ih]
    · simp [subtitleScanLoop, List.filter_cons, specSubtitleMatch, hext, ih]

theorem deletedSweepLoop_eq_filter (fs : FS) (l : List FileRec) (acc : List String) :
    deletedSweepLoop fs l acc = acc ++ (l.filter (fun f => !fs.access f.path)).map (fun f => f.id) := by
  induction l generalizing acc with
  | nil => simp [deletedSweepLoop]
  | cons f rest ih =>
    by_cases h : fs.access f.path
    · simp [deletedSweepLoop, h, ih]
    · simp [deletedSweepLoop, h, ih]

theorem emptySweepLoop_eq_filter (fs : FS) (l : List DirRec) (acc : List String) :
    emptySweepLoop fs l acc =
      acc ++ (l.filter (fun d => emptyDirOnDiskCheck fs d.path)).map (fun d => d.id) := by
  induction l generalizing acc with
  | nil => simp [emptySweepLoop]
  | cons d rest ih =>
    by_cases h : emptyDirOnDiskCheck fs d.path
    · simp [emptySweepLoop, h, ih]
    · simp [emptySweepLoop, h, ih]

theorem emptyDirOnDiskCheck_eq_amended (fs : FS) (p : String) :
    emptyDirOnDiskCheck fs p = specEmptyOnDiskAmended fs p := by
  unfold emptyDirOnDiskCheck specEmptyOnDiskAmended specEmptyOnDisk
  cases hstat : fs.stat p with
  | none => simp
  | some stats =>
    by_cases hdir : stats.isDir
    · cases hrd : fs.readdir p with
      | none => simp [hdir]
      | some files => simp [hdir]
    · simp [hdir]

theorem planStep_fileCount (fs : FS) (existing : List FileRec) (directoryId : String)
    (acc : BatchPlan) (info : FileInfo) :
    (planStep fs existing directoryId acc info).fileCount = acc.fileCount + 1 := by
  unfold planStep
  cases lookupExistingFile existing info.fullPath with
  | none => simp
  | some f =>
    by_cases h : jsDateNeq f.modifiedAt info.stats.mtime
    · simp [h]
    · simp [h]

theorem planStep_totalSize (fs : FS) (existing : List FileRec) (directoryId : String)
    (acc : BatchPlan) (info : FileInfo) :
    (planStep fs existing directoryId acc info).totalSize = acc.totalSize + info.stats.size := by
  unfold planStep
  cases lookupExistingFile existing info.fullPath with
  | none => simp
  | some f =>
    by_cases h : jsDateNeq f.modifiedAt info.stats.mtime
    · simp [h]
    · simp [h]

theorem planFold_counts (fs : FS) (existing : List FileRec) (directoryId : String)
    (infos : List FileInfo) (acc : BatchPlan) :
    (infos.foldl (planStep fs existing directoryId) acc).fileCount = acc.fileCount + infos.length ∧
    (infos.foldl (planStep fs existing directoryId) acc).totalSize =
      acc.totalSize + (infos.map (fun i => i.stats.size)).sum := by
  induction infos generalizing acc with
  | nil => simp
  | cons info rest ih =>
    have h := ih (planStep fs existing directoryId acc info)
    constructor
    · rw [List.foldl_cons, h.1, planStep_fileCount, List.length_cons]
      omega
    · rw [List.foldl_cons, h.2, planStep_totalSize, List.map_cons, List.sum_cons]
      omega

theorem planBatch_fileCount (fs : FS) (existing : List FileRec) (directoryId : String)
    (infos : List FileInfo) :
    (planBatch fs existing directoryId infos).fileCount = infos.length := by
  have h := planFold_counts fs existing directoryId infos
    { filesToCreate := [], filesToUpdate := [], fileCount := 0, totalSize := 0 }
  simpa [planBatch] using h.1

theorem planBatch_totalSize (fs : FS) (existing : List FileRec) (directoryId : String)
    (infos : List FileInfo) :
    (planBatch fs existing directoryId infos).totalSize = (infos.map (fun i => i.stats.size)).sum := by
  have h := planFold_counts fs existing directoryId infos
    { filesToCreate := [], filesToUpdate := [], fileCount := 0, totalSize := 0 }
  simpa [planBatch] using h.2

theorem eraseIds_not_mem (tracked ids : List String) (x : String) (h : x ∉ tracked) :
    x ∉ eraseIds tracked ids := by
  induction ids generalizing tracked with
  | nil => simpa [eraseIds] using h
  | cons id rest ih =>
    exact ih (tracked.erase id) (fun hmem => h (List.mem_of_mem_erase hmem))

theorem eraseIds_nodup (tracked ids : List String) (h : tracked.Nodup) :
    (eraseIds tracked ids).Nodup := by
  induction ids generalizing tracked with
  | nil => simpa [eraseIds] using h
  | cons id rest ih => exact ih (tracked.erase id) (h.erase id)

theorem eraseIds_removes (tracked ids : List String) (h : tracked.Nodup) (x : String)
    (hx : x ∈ ids) : x ∉ eraseIds tracked ids := by
  induction ids generalizing tracked with
  | nil => cases hx
  | cons id rest ih =>
    rcases List.mem_cons.mp hx with heq | hmem
    · subst heq
      exact eraseIds_not_mem (tracked.erase x) rest x (h.not_mem_erase)
    · exact ih (tracked.erase id) (h.erase id) hmem

theorem eraseIds_of_absent (tracked ids : List String) (h : ∀ i ∈ ids, i ∉ tracked) :
    eraseIds tracked ids = tracked := by
  induction ids generalizing tracked with
  | nil => rfl
  | cons id rest ih =>
    have hid : tracked.erase id = tracked :=
      List.erase_of_not_mem (h id (List.mem_cons_self id rest))
    simp only [eraseIds, hid]
    exact ih tracked (fun i hi => h i (List.mem_cons_of_mem id hi))

/-! ## Concrete inputs for the claim theorems -/

def exEntryA : Dirent := { name := "a.txt", isFile := true, isDir := false }

def exStatsA : Stats := { size := 5, mtime := { time := 1000, ref := 1 }, isDir := false }

/-- Disk oracle for C1: one file `d/a.txt`; its on-disk mtime instant equals
the stored record's instant, but `fs.stat` returns a fresh `Date` object. -/
def exFS1 : FS :=
  { access := fun _ => true,
    stat := fun p => if p = "d/a.txt" then some exStatsA else none,
    readdir := fun _ => none }

def exFileRecA : FileRec :=
  { id := "f1", name := "a.txt", path := "d/a.txt", directoryId := "d1",
    type := "document", extension := ".txt", size := 5,
    modifiedAt := some { time := 1000, ref := 0 },
    hasSubtitles := false, subtitlePaths := [] }

/-- C1: the mtime-gated update law fails on the code.  The stored record and
the on-disk stat carry the same instant (time 1000), differing only in
object identity, yet the entry is classified dirty and lands in the
`batchUpdateFiles` list: `existingFile.modifiedAt !== info.stats.mtime`
compares `Date` references, which are always distinct for a row loaded from
storage and a fresh `fs.Stats`. -/
theorem mtime_gate_reissues_update_on_unchanged_file :
    exFileRecA.modifiedAt = some { time := 1000, ref := 0 } ∧
    (exFS1.stat "d/a.txt").map Stats.mtime = some { time := 1000, ref := 1 } ∧
    (planBatch exFS1 [exFileRecA] "d1" (collectFileInfos exFS1 "d" [exEntryA])).filesToUpdate.map
      Prod.fst = ["f1"] := by
  refine ⟨rfl, rfl, ?_⟩
  decide

def exDirD1 : DirRec :=
  { id := "d1", name := "d", path := "p/d", parentId := none, fileCount := 7, totalSize := 70 }

def exSt2 : St :=
  { currentScanJob := none, deletedFiles := [], emptyDirectories := [],
    db := { dirs := [exDirD1], files := [], jobs := [], nextId := 0 }, faults := [] }

def exFS2 : FS :=
  { access := fun _ => true, stat := fun _ => none, readdir := fun _ => some [] }

/-- C2 counterexample: for a directory whose current disk listing contains
zero file entries, `batchProcessFiles` returns before `updateDirectory`, so
the stored record keeps its stale `fileCount = 7` where the claim requires
the recomputed value `0`. -/
theorem empty_listing_skips_stats_update :
    batchProcessFiles exFS2 [] "p/d" "d1" exSt2 = .ok exSt2 ∧
    ((exSt2.db.dirs.find? (fun d => d.id == "d1")).map DirRec.fileCount ≠ some 0) := by
  exact ⟨rfl, by decide⟩

theorem popFault_nil (st : St) (h : st.faults = []) : popFault st = (false, st) := by
  unfold popFault
  rw [h]

theorem batchCreateFilesOp_nofault (datas : List InsertFileData) (st : St)
    (h : st.faults = []) :
    ∃ st1, batchCreateFilesOp datas st = .ok st1 ∧ st1.db.dirs = st.db.dirs ∧
      st1.faults = [] := by
  refine ⟨
    { st with db :=
        { st.db with
            files := st.db.files ++ allocFiles st.db.nextId datas,
            nextId := st.db.nextId + datas.length } }, ?_, rfl, h⟩
  unfold batchCreateFilesOp
  rw [popFault_nil st h]
  rfl

theorem batchUpdateFilesOp_nofault (pairs : List (String × InsertFileData)) (st : St)
    (h : st.faults = []) :
    ∃ st1, batchUpdateFilesOp pairs st = .ok st1 ∧ st1.db.dirs = st.db.dirs ∧
      st1.faults = [] := by
  refine ⟨
    { st with db :=
        { st.db with
            files := pairs.foldl (fun fs pr =>
              fs.map (fun f => if f.id == pr.1 then applyFileData f.id pr.2 else f))
              st.db.files } }, ?_, rfl, h⟩
  unfold batchUpdateFilesOp
  rw [popFault_nil st h]
  rfl

theorem updateDirectoryStatsOp_nofault (id : String) (fc ts : Nat) (st : St)
    (h : st.faults = []) :
    ∃ st1, updateDirectoryStatsOp id fc ts st = .ok st1 ∧
      st1.db.dirs = st.db.dirs.map (fun d =>
        if d.id == id then { d with fileCount := fc, totalSize := ts } else d) := by
  refine ⟨
    { st with db :=
        { st.db with
            dirs := st.db.dirs.map (fun d =>
              if d.id == id then { d with fileCount := fc, totalSize := ts } else d) } },
    ?_, rfl⟩
  unfold updateDirectoryStatsOp
  rw [popFault_nil st h]
  rfl

/-- C2 amended: for every directory whose current disk listing contains at
least one file entry that stats successfully, and whose storage writes
succeed, the Directory record's `fileCount`/`totalSize` are recomputed from
the current listing's statted file entries and written via
`updateDirectory`; a directory with zero (statted) file entries is left
with its previously stored values. -/
theorem batch_stats_recomputed_for_nonempty_listing
    (fs : FS) (entries : List Dirent) (dirPath directoryId : String) (st : St) (d : DirRec)
    (hfaults : st.faults = [])
    (hmem : d ∈ st.db.dirs) (hid : d.id = directoryId)
    (hinfos : collectFileInfos fs dirPath (entries.filter (fun e => e.isFile)) ≠ []) :
    ∃ st', batchProcessFiles fs entries dirPath directoryId st = .ok st' ∧
      ∃ d' ∈ st'.db.dirs, d'.id = directoryId ∧
        d'.fileCount = (collectFileInfos fs dirPath (entries.filter (fun e => e.isFile))).length ∧
        d'.totalSize = ((collectFileInfos fs dirPath (entries.filter (fun e => e.isFile))).map
          (fun i => i.stats.size)).sum := by
  have hfe : ((entries.filter (fun e => e.isFile)).length == 0) = false := by
    cases hfe0 : entries.filter (fun e => e.isFile) with
    | nil => rw [hfe0] at hinfos; exact absurd rfl hinfos
    | cons a l => simp
  have hinf : ((collectFileInfos fs dirPath (entries.filter (fun e => e.isFile))).length == 0)
      = false := by
    cases hinf0 : collectFileInfos fs dirPath (entries.filter (fun e => e.isFile)) with
    | nil => exact absurd hinf0 hinfos
    | cons a l => simp
  simp only [batchProcessFiles]
  rw [hfe, hinf]
  simp only [Bool.false_eq_true, if_false]
  have hcount := planBatch_fileCount fs
    (getFilesByPaths st.db ((collectFileInfos fs dirPath (entries.filter (fun e => e.isFile))).map
      (fun i => i.fullPath))) directoryId
    (collectFileInfos fs dirPath (entries.filter (fun e => e.isFile)))
  have hsize := planBatch_totalSize fs
    (getFilesByPaths st.db ((collectFileInfos fs dirPath (entries.filter (fun e => e.isFile))).map
      (fun i => i.fullPath))) directoryId
    (collectFileInfos fs dirPath (entries.filter (fun e => e.isFile)))
  set plan := planBatch fs
    (getFilesByPaths st.db ((collectFileInfos fs dirPath (entries.filter (fun e => e.isFile))).map
      (fun i => i.fullPath))) directoryId
    (collectFileInfos fs dirPath (entries.filter (fun e => e.isFile))) with hplandef
  rw [← hcount, ← hsize]
  have hstep1 : ∃ st1,
      (if (plan.filesToCreate.length == 0) = true then Except.ok st
        else batchCreateFilesOp plan.filesToCreate st) = .ok st1 ∧
      st1.db.dirs = st.db.dirs ∧ st1.faults = [] := by
    by_cases h1 : (plan.filesToCreate.length == 0) = true
    · exact ⟨st, by rw [if_pos h1], rfl, hfaults⟩
    · obtain ⟨st1, ha, hb, hc⟩ := batchCreateFilesOp_nofault plan.filesToCreate st hfaults
      exact ⟨st1, by rw [if_neg h1]; exact ha, hb, hc⟩
  obtain ⟨st1, hs1, hs1dirs, hs1f⟩ := hstep1
  rw [hs1]
  simp only []
  have hstep2 : ∃ st2,
      (if (plan.filesToUpdate.length == 0) = true then Except.ok st1
        else batchUpdateFilesOp plan.filesToUpdate st1) = .ok st2 ∧
      st2.db.dirs = st.db.dirs ∧ st2.faults = [] := by
    by_cases h2 : (plan.filesToUpdate.length == 0) = true
    · exact ⟨st1, by rw [if_pos h2], hs1dirs, hs1f⟩
    · obtain ⟨st2, ha, hb, hc⟩ := batchUpdateFilesOp_nofault plan.filesToUpdate st1 hs1f
      exact ⟨st2, by rw [if_neg h2]; exact ha, hb.trans hs1dirs, hc⟩
  obtain ⟨st2, hs2, hs2dirs, hs2f⟩ := hstep2
  rw [hs2]
  simp only []
  obtain ⟨st3, h3, h3dirs⟩ := updateDirectoryStatsOp_nofault directoryId
    plan.fileCount plan.totalSize st2 hs2f
  refine ⟨st3, h3, ?_⟩
  refine ⟨{ d with fileCount := plan.fileCount, totalSize := plan.totalSize }, ?_, hid, rfl, rfl⟩
  rw [h3dirs, hs2dirs]
  have hbeq : (d.id == directoryId) = true := by simp [hid]
  have hmap := List.mem_map_of_mem (fun d0 : DirRec =>
    if d0.id == directoryId then
      { d0 with fileCount := plan.fileCount, totalSize := plan.totalSize }
    else d0) hmem
  simpa [hbeq] using hmap

theorem createScanJobOp_error_guard (status : String) (prog : Nat) (st : St)
    (e : String × St) (h : createScanJobOp status prog st = .error e) :
    e.2.currentScanJob = st.currentScanJob := by
  unfold createScanJobOp popFault at h
  cases hf : st.faults with
  | nil => rw [hf] at h; simp at h
  | cons b r =>
    rw [hf] at h
    cases b with
    | false => simp at h
    | true =>
      simp only [if_pos] at h
      have := (Except.error.injEq _ _).mp h.symm
      rw [this]

/-- C3: while the in-memory guard is set, `startScan` throws
AlreadyInProgress leaving the state (ScanJob table included) untouched; and
whenever a call that found the guard clear terminates, normally or with an
error, the guard is clear again. -/
theorem startScan_single_flight_and_guard_release
    (fuel : Nat) (fs : FS) (dir : String) (st : St) :
    (∀ j, st.currentScanJob = some j →
      startScan fuel fs dir st = .error ("Scan already in progress", st)) ∧
    (st.currentScanJob = none →
      (resultSt (startScan fuel fs dir st)).currentScanJob = none) := by
  constructor
  · intro j hj
    unfold startScan
    rw [hj]
  · intro hnone
    unfold startScan
    rw [hnone]
    by_cases hacc : fs.access dir
    · simp only [hacc, Bool.not_true, Bool.false_eq_true, if_false]
      cases hcs : createScanJobOp "scanning" 0 st with
      | error e =>
        simp only [resultSt]
        rw [createScanJobOp_error_guard "scanning" 0 st e hcs, hnone]
      | ok pr =>
        simp only []
        split
        · simp [resultSt, clearGuard]
        · split
          · simp [resultSt, clearGuard]
          · simp [resultSt, clearGuard]
    · simp only [Bool.not_eq_true] at hacc
      simp [hacc, resultSt, hnone]

/-- Witness for C3 at concrete inputs: a set guard rejects the call with the
state unchanged, and a clear guard is clear again after the call returns. -/
theorem startScan_single_flight_witness :
    startScan 1 exFS2 "p/d" { exSt2 with currentScanJob := some "job0" } =
      .error ("Scan already in progress", { exSt2 with currentScanJob := some "job0" }) ∧
    (resultSt (startScan 1 exFS2 "p/d" exSt2)).currentScanJob = none := by
  constructor
  · exact (startScan_single_flight_and_guard_release 1 exFS2 "p/d"
      { exSt2 with currentScanJob := some "job0" }).1 "job0" rfl
  · exact (startScan_single_flight_and_guard_release 1 exFS2 "p/d" exSt2).2 rfl

/-- C4: an inaccessible root makes `startScan` fail with
DirectoryNotAccessible before any ScanJob is created: the returned state is
the input state, so neither the catalog nor the scanner state changed. -/
theorem startScan_inaccessible_root (fuel : Nat) (fs : FS) (dir : String) (st : St)
    (hguard : st.currentScanJob = none) (hacc : fs.access dir = false) :
    startScan fuel fs dir st = .error ("Directory not accessible: " ++ dir, st) := by
  unfold startScan
  rw [hguard]
  simp [hacc]

def exFS4 : FS :=
  { access := fun _ => false, stat := fun _ => none, readdir := fun _ => none }

/-- Witness for C4 at a concrete inaccessible root. -/
theorem startScan_inaccessible_root_witness :
    startScan 1 exFS4 "root" exSt2 = .error ("Directory not accessible: " ++ "root", exSt2) :=
  startScan_inaccessible_root 1 exFS4 "root" exSt2 rfl rfl

/-- C5: after a sweep, `getDeletedFiles` is exactly the ids of catalog files
whose path fails the disk existence check (rebuilt from scratch,
independently of the previous sweep's contents), the sweep itself deletes
nothing, and a successful `cleanupDeletedFiles [id]` removes the id from
both the tracking set and the catalog. -/
theorem deleted_detection_roundtrip (fs : FS) (st : St) (fileId : String) :
    getDeletedFiles (checkForDeletedFiles fs st) = specDeletedIds fs st.db ∧
    (checkForDeletedFiles fs st).db = st.db ∧
    (st.faults = [] → (st.db.files.map FileRec.id).Nodup →
      fileId ∈ specDeletedIds fs st.db →
      ∃ st2, cleanupDeletedFiles [fileId] (checkForDeletedFiles fs st) = .ok st2 ∧
        fileId ∉ getDeletedFiles st2 ∧ ∀ f ∈ st2.db.files, f.id ≠ fileId) := by
  have hdel : getDeletedFiles (checkForDeletedFiles fs st) = specDeletedIds fs st.db := by
    simp [checkForDeletedFiles, getDeletedFiles, getAllFiles, deletedSweepLoop_eq_filter,
      specDeletedIds]
  refine ⟨hdel, rfl, ?_⟩
  intro hfa hnd hmem
  have hfa1 : (checkForDeletedFiles fs st).faults = [] := hfa
  have hnodup : (checkForDeletedFiles fs st).deletedFiles.Nodup := by
    have h1 : (checkForDeletedFiles fs st).deletedFiles = specDeletedIds fs st.db := hdel
    rw [h1]
    unfold specDeletedIds
    exact List.Nodup.sublist (List.Sublist.map _ (List.filter_sublist _)) hnd
  obtain ⟨st2', hbd, hbfiles, hbdel⟩ :
      ∃ st2', batchDeleteFilesOp [fileId] (checkForDeletedFiles fs st) = .ok st2' ∧
        st2'.db.files = (checkForDeletedFiles fs st).db.files.filter
          (fun f => !(([fileId] : List String).contains f.id)) ∧
        st2'.deletedFiles = (checkForDeletedFiles fs st).deletedFiles := by
    refine ⟨
      { (checkForDeletedFiles fs st) with db :=
          { (checkForDeletedFiles fs st).db with
              files := (checkForDeletedFiles fs st).db.files.filter
                (fun f => !(([fileId] : List String).contains f.id)) } }, ?_, rfl, rfl⟩
    unfold batchDeleteFilesOp
    rw [popFault_nil (checkForDeletedFiles fs st) hfa1]
    rfl
  have hclean : cleanupDeletedFiles [fileId] (checkForDeletedFiles fs st) =
      .ok { st2' with deletedFiles := eraseIds st2'.deletedFiles [fileId] } := by
    have hstep : cleanupDeletedFiles [fileId] (checkForDeletedFiles fs st) =
        match batchDeleteFilesOp [fileId] (checkForDeletedFiles fs st) with
        | Except.error e => Except.error e
        | Except.ok s => Except.ok { s with deletedFiles := eraseIds s.deletedFiles [fileId] } :=
      rfl
    rw [hstep, hbd]
  refine ⟨{ st2' with deletedFiles := eraseIds st2'.deletedFiles [fileId] }, hclean, ?_, ?_⟩
  · show fileId ∉ eraseIds st2'.deletedFiles [fileId]
    rw [hbdel]
    exact eraseIds_removes _ [fileId] hnodup fileId (List.mem_singleton.mpr rfl)
  · intro f hf
    have hf2 : f ∈ st2'.db.files := hf
    rw [hbfiles] at hf2
    have hp := (List.mem_filter.mp hf2).2
    simp at hp
    exact hp

def exFileRecGone : FileRec :=
  { id := "g1", name := "gone.txt", path := "p/gone.txt", directoryId := "d1",
    type := "document", extension := ".txt", size := 3, modifiedAt := none,
    hasSubtitles := false, subtitlePaths := [] }

def exSt5 : St :=
  { currentScanJob := none, deletedFiles := ["stale"], emptyDirectories := [],
    db := { dirs := [], files := [exFileRecGone], jobs := [], nextId := 0 }, faults := [] }

/-- Witness for C5: a catalog file missing on disk is detected and then
cleaned from both the tracking set and the catalog. -/
theorem deleted_detection_roundtrip_witness :
    getDeletedFiles (checkForDeletedFiles exFS4 exSt5) = specDeletedIds exFS4 exSt5.db ∧
    (checkForDeletedFiles exFS4 exSt5).db = exSt5.db ∧
    ∃ st2, cleanupDeletedFiles ["g1"] (checkForDeletedFiles exFS4 exSt5) = .ok st2 ∧
      "g1" ∉ getDeletedFiles st2 ∧ ∀ f ∈ st2.db.files, f.id ≠ "g1" := by
  have h := deleted_detection_roundtrip exFS4 exSt5 "g1"
  exact ⟨h.1, h.2.1, h.2.2 rfl (by decide) (by decide)⟩

def exDirE : DirRec :=
  { id := "e1", name := "e", path := "p/e", parentId := none, fileCount := 0, totalSize := 0 }

def exSt6 : St :=
  { currentScanJob := none, deletedFiles := [], emptyDirectories := [],
    db := { dirs := [exDirE], files := [], jobs := [], nextId := 0 }, faults := [] }

/-- Disk oracle for the C6 counterexample: `p/e` stats as a directory but
its listing cannot be read. -/
def exFS6 : FS :=
  { access := fun _ => true,
    stat := fun p =>
      if p = "p/e" then some { size := 0, mtime := { time := 0, ref := 0 }, isDir := true }
      else none,
    readdir := fun _ => none }

/-- C6 counterexample: a structural-leaf candidate that exists as a
directory but whose listing fails to read is recorded as empty by the code,
while it satisfies none of the claim's three qualifying conditions, so the
detected set is not the claimed set. -/
theorem unreadable_dir_counted_empty :
    getEmptyDirectories (checkForEmptyDirectories exFS6 exSt6) ≠ specEmptyIds exFS6 exSt6.db := by
  decide

/-- C6 amended: after a sweep, `getEmptyDirectories` contains exactly the
structural-leaf candidates whose path no longer exists, or is not a
directory, or is a directory whose listing has zero entries — or is a
directory whose listing cannot be read; the set replaces the previous
sweep's contents and the sweep does not modify the catalog. -/
theorem empty_detection_matches_amended (fs : FS) (st : St) :
    getEmptyDirectories (checkForEmptyDirectories fs st) = specEmptyIdsAmended fs st.db ∧
    (checkForEmptyDirectories fs st).db = st.db := by
  refine ⟨?_, rfl⟩
  simp only [checkForEmptyDirectories, getEmptyDirectories, emptySweepLoop_eq_filter,
    specEmptyIdsAmended, emptyDirOnDiskCheck_eq_amended, List.nil_append]

theorem cleanupDeletedFiles_cons (a : String) (l : List String) (st : St) :
    cleanupDeletedFiles (a :: l) st =
      match batchDeleteFilesOp (a :: l) st with
      | Except.error e => Except.error e
      | Except.ok s => Except.ok { s with deletedFiles := eraseIds s.deletedFiles (a :: l) } :=
  rfl

theorem cleanupEmptyDirectories_cons (a : String) (l : List String) (st : St) :
    cleanupEmptyDirectories (a :: l) st =
      match batchDeleteDirectoriesOp (a :: l) st with
      | Except.error e => Except.error e
      | Except.ok s =>
        Except.ok { s with emptyDirectories := eraseIds s.emptyDirectories (a :: l) } :=
  rfl

theorem batchDeleteFilesOp_nofault (ids : List String) (st : St) (h : st.faults = []) :
    batchDeleteFilesOp ids st = .ok
      { st with db :=
          { st.db with files := st.db.files.filter (fun f => !(ids.contains f.id)) } } := by
  unfold batchDeleteFilesOp
  rw [popFault_nil st h]
  rfl

theorem batchDeleteDirectoriesOp_nofault (ids : List String) (st : St) (h : st.faults = []) :
    batchDeleteDirectoriesOp ids st = .ok
      { st with db :=
          { st.db with dirs := st.db.dirs.filter (fun d => !(ids.contains d.id)) } } := by
  unfold batchDeleteDirectoriesOp
  rw [popFault_nil st h]
  rfl

theorem batchDeleteFilesOp_fault (ids : List String) (st : St)
    (h : st.faults.head? = some true) :
    batchDeleteFilesOp ids st =
      .error ("storage failure", { st with faults := st.faults.tail }) := by
  obtain ⟨r, hf⟩ : ∃ r, st.faults = true :: r := by
    cases hf0 : st.faults with
    | nil => rw [hf0] at h; simp at h
    | cons b r =>
      rw [hf0] at h
      simp at h
      exact ⟨r, by rw [h]⟩
  unfold batchDeleteFilesOp popFault
  rw [hf]
  rfl

theorem batchDeleteDirectoriesOp_fault (ids : List String) (st : St)
    (h : st.faults.head? = some true) :
    batchDeleteDirectoriesOp ids st =
      .error ("storage failure", { st with faults := st.faults.tail }) := by
  obtain ⟨r, hf⟩ : ∃ r, st.faults = true :: r := by
    cases hf0 : st.faults with
    | nil => rw [hf0] at h; simp at h
    | cons b r =>
      rw [hf0] at h
      simp at h
      exact ⟨r, by rw [h]⟩
  unfold batchDeleteDirectoriesOp popFault
  rw [hf]
  rfl

/-- C7: a batch-delete failure propagates out of either cleanup operation
with the tracking sets and the catalog unchanged; a successful call removes
every requested id from its tracking set; and re-invoking on ids that are
already absent from the tracking set and from storage is a no-op returning
success. -/
theorem cleanup_failure_success_idempotent (ids : List String) (st : St) :
    (ids ≠ [] → st.faults.head? = some true →
      cleanupDeletedFiles ids st =
        .error ("storage failure", { st with faults := st.faults.tail }) ∧
      cleanupEmptyDirectories ids st =
        .error ("storage failure", { st with faults := st.faults.tail })) ∧
    (st.faults = [] → st.deletedFiles.Nodup →
      ∃ st2, cleanupDeletedFiles ids st = .ok st2 ∧ ∀ i ∈ ids, i ∉ st2.deletedFiles) ∧
    (st.faults = [] → st.emptyDirectories.Nodup →
      ∃ st2, cleanupEmptyDirectories ids st = .ok st2 ∧ ∀ i ∈ ids, i ∉ st2.emptyDirectories) ∧
    (st.faults = [] → (∀ i ∈ ids, i ∉ st.deletedFiles) → (∀ f ∈ st.db.files, f.id ∉ ids) →
      cleanupDeletedFiles ids st = .ok st) ∧
    (st.faults = [] → (∀ i ∈ ids, i ∉ st.emptyDirectories) → (∀ d ∈ st.db.dirs, d.id ∉ ids) →
      cleanupEmptyDirectories ids st = .ok st) := by
  refine ⟨?_, ?_, ?_, ?_, ?_⟩
  · intro hne hhead
    obtain ⟨a, l, hids⟩ : ∃ a l, ids = a :: l := by
      cases ids with
      | nil => exact absurd rfl hne
      | cons a l => exact ⟨a, l, rfl⟩
    subst hids
    constructor
    · rw [cleanupDeletedFiles_cons, batchDeleteFilesOp_fault (a :: l) st hhead]
    · rw [cleanupEmptyDirectories_cons, batchDeleteDirectoriesOp_fault (a :: l) st hhead]
  · intro hfa hnd
    cases ids with
    | nil => exact ⟨st, rfl, by simp⟩
    | cons a l =>
      rw [cleanupDeletedFiles_cons, batchDeleteFilesOp_nofault (a :: l) st hfa]
      refine ⟨_, rfl, ?_⟩
      intro i hi
      show i ∉ eraseIds st.deletedFiles (a :: l)
      exact eraseIds_removes st.deletedFiles (a :: l) hnd i hi
  · intro hfa hnd
    cases ids with
    | nil => exact ⟨st, rfl, by simp⟩
    | cons a l =>
      rw [cleanupEmptyDirectories_cons, batchDeleteDirectoriesOp_nofault (a :: l) st hfa]
      refine ⟨_, rfl, ?_⟩
      intro i hi
      show i ∉ eraseIds st.emptyDirectories (a :: l)
      exact eraseIds_removes st.emptyDirectories (a :: l) hnd i hi
  · intro hfa htracked hstore
    cases ids with
    | nil => rfl
    | cons a l =>
      rw [cleanupDeletedFiles_cons, batchDeleteFilesOp_nofault (a :: l) st hfa]
      have hfilter : st.db.files.filter (fun f => !((a :: l).contains f.id)) = st.db.files := by
        apply List.filter_eq_self.mpr
        intro f hf
        simpa using hstore f hf
      have herase : eraseIds st.deletedFiles (a :: l) = st.deletedFiles :=
        eraseIds_of_absent st.deletedFiles (a :: l) htracked
      simp only []
      rw [hfilter, herase]
  · intro hfa htracked hstore
    cases ids with
    | nil => rfl
    | cons a l =>
      rw [cleanupEmptyDirectories_cons, batchDeleteDirectoriesOp_nofault (a :: l) st hfa]
      have hfilter : st.db.dirs.filter (fun d => !((a :: l).contains d.id)) = st.db.dirs := by
        apply List.filter_eq_self.mpr
        intro d hd
        simpa using hstore d hd
      have herase : eraseIds st.emptyDirectories (a :: l) = st.emptyDirectories :=
        eraseIds_of_absent st.emptyDirectories (a :: l) htracked
      simp only []
      rw [hfilter, herase]

/-- Witness for C7 at concrete inputs: the failing call propagates the error
with the tracking set intact, the succeeding call removes the id, and the
repeat call is a no-op. -/
theorem cleanup_failure_success_idempotent_witness :
    (cleanupDeletedFiles ["g1"] { exSt5 with faults := [true] } =
      .error ("storage failure", exSt5) ∧
     cleanupEmptyDirectories ["g1"] { exSt5 with faults := [true] } =
      .error ("storage failure", exSt5)) ∧
    (∃ st2, cleanupDeletedFiles ["stale"] exSt5 = .ok st2 ∧
      ∀ i ∈ (["stale"] : List String), i ∉ st2.deletedFiles) ∧
    cleanupDeletedFiles ["x9"] exSt5 = .ok exSt5 := by
  refine ⟨?_, ?_, ?_⟩
  · have h := (cleanup_failure_success_idempotent ["g1"]
      { exSt5 with faults := [true] }).1 (by decide) rfl
    exact h
  · exact (cleanup_failure_success_idempotent ["stale"] exSt5).2.1 rfl (by decide)
  · exact (cleanup_failure_success_idempotent ["x9"] exSt5).2.2.2.1 rfl (by decide) (by decide)

/-- Disk oracle for the C8 witness conjunct: `d` holds a video, a matching
subtitle, a non-matching subtitle, and a non-subtitle file. -/
def exFS8 : FS :=
  { access := fun _ => true, stat := fun _ => none,
    readdir := fun p =>
      if p = "d" then
        some [{ name := "movie.en.srt", isFile := true, isDir := false },
              { name := "other.srt", isFile := true, isDir := false },
              { name := "movie.txt", isFile := true, isDir := false }]
      else none }

/-- C8: `findSubtitleFiles` returns exactly the listing entries whose
lowercase extension lies in the fixed subtitle set and whose base name has
the video's base name as a prefix, in listing order, joined to the video's
directory; a failed directory read yields the empty list.  Concretely,
`movie.en.srt` matches `movie.mp4` while `other.srt` and `movie.txt` do
not. -/
theorem findSubtitles_matches_spec :
    (∀ (fs : FS) (videoPath : String),
      findSubtitleFiles fs videoPath = specFindSubtitles fs videoPath) ∧
    findSubtitleFiles exFS8 "d/movie.mp4" = ["d/movie.en.srt"] ∧
    (∀ (fs : FS) (videoPath : String), fs.readdir (dirnameOf videoPath) = none →
      findSubtitleFiles fs videoPath = []) := by
  have hmain : ∀ (fs : FS) (videoPath : String),
      findSubtitleFiles fs videoPath = specFindSubtitles fs videoPath := by
    intro fs videoPath
    cases h : fs.readdir (dirnameOf videoPath) with
    | none => simp [findSubtitleFiles, specFindSubtitles, h]
    | some entries =>
      simp only [findSubtitleFiles, specFindSubtitles, h]
      exact subtitleScanLoop_eq_filter (dirnameOf videoPath) (parseNameOf videoPath)
        (entries.map (fun e => e.name))
  refine ⟨hmain, by decide, ?_⟩
  intro fs videoPath h
  simp [findSubtitleFiles, h]

theorem heapGet_append_self (hp : List (List String)) (x : List String) :
    heapGet (hp ++ [x]) hp.length = x := by
  induction hp with
  | nil => rfl
  | cons a t ih => exact ih

theorem heapGet_append_left (hp : List (List String)) (x : List String) (n : Nat)
    (hn : n < hp.length) : heapGet (hp ++ [x]) n = heapGet hp n := by
  induction hp generalizing n with
  | nil => exact absurd hn (by simp)
  | cons a t ih =>
    cases n with
    | zero => rfl
    | succ m => exact ih m (by simpa using hn)

theorem heapGet_set_ne (hp : List (List String)) (i j : Nat) (v : List String)
    (hne : i ≠ j) : heapGet (heapSet hp i v) j = heapGet hp j := by
  induction hp generalizing i j with
  | nil => rfl
  | cons a t ih =>
    cases i with
    | zero =>
      cases j with
      | zero => exact absurd rfl hne
      | succ m => rfl
    | succ k =>
      cases j with
      | zero => rfl
      | succ m => exact ih k m (fun hkm => hne (by rw [hkm]))

/-- C10: each getter allocates a fresh array (a reference distinct from the
scanner's internal one) holding the same elements, so writing through the
returned reference leaves the internal deleted-files and empty-directories
state unchanged. -/
theorem getter_copies_are_isolated (h : List (List String)) (deletedRef emptyRef : Nat)
    (v : List String) (hd : deletedRef < h.length) (he : emptyRef < h.length) :
    (getDeletedFilesAlloc deletedRef h).1 ≠ deletedRef ∧
    heapGet (getDeletedFilesAlloc deletedRef h).2 (getDeletedFilesAlloc deletedRef h).1 =
      heapGet h deletedRef ∧
    heapGet (heapSet (getDeletedFilesAlloc deletedRef h).2
      (getDeletedFilesAlloc deletedRef h).1 v) deletedRef = heapGet h deletedRef ∧
    (getEmptyDirectoriesAlloc emptyRef h).1 ≠ emptyRef ∧
    heapGet (getEmptyDirectoriesAlloc emptyRef h).2 (getEmptyDirectoriesAlloc emptyRef h).1 =
      heapGet h emptyRef ∧
    heapGet (heapSet (getEmptyDirectoriesAlloc emptyRef h).2
      (getEmptyDirectoriesAlloc emptyRef h).1 v) emptyRef = heapGet h emptyRef := by
  refine ⟨?_, ?_, ?_, ?_, ?_, ?_⟩
  · show h.length ≠ deletedRef
    omega
  · exact heapGet_append_self h (heapGet h deletedRef)
  · show heapGet (heapSet (h ++ [heapGet h deletedRef]) h.length v) deletedRef =
      heapGet h deletedRef
    rw [heapGet_set_ne _ _ _ _ (by omega : h.length ≠ deletedRef)]
    exact heapGet_append_left h _ deletedRef hd
  · show h.length ≠ emptyRef
    omega
  · exact heapGet_append_self h (heapGet h emptyRef)
  · show heapGet (heapSet (h ++ [heapGet h emptyRef]) h.length v) emptyRef =
      heapGet h emptyRef
    rw [heapGet_set_ne _ _ _ _ (by omega : h.length ≠ emptyRef)]
    exact heapGet_append_left h _ emptyRef he

/-- Witness for C10 on a concrete two-array heap. -/
theorem getter_copies_are_isolated_witness :
    (getDeletedFilesAlloc 0 [["a"], ["b"]]).1 ≠ 0 ∧
    heapGet (getDeletedFilesAlloc 0 [["a"], ["b"]]).2 (getDeletedFilesAlloc 0 [["a"], ["b"]]).1 =
      heapGet [["a"], ["b"]] 0 ∧
    heapGet (heapSet (getDeletedFilesAlloc 0 [["a"], ["b"]]).2
      (getDeletedFilesAlloc 0 [["a"], ["b"]]).1 ["x"]) 0 = heapGet [["a"], ["b"]] 0 ∧
    (getEmptyDirectoriesAlloc 1 [["a"], ["b"]]).1 ≠ 1 ∧
    heapGet (getEmptyDirectoriesAlloc 1 [["a"], ["b"]]).2
      (getEmptyDirectoriesAlloc 1 [["a"], ["b"]]).1 = heapGet [["a"], ["b"]] 1 ∧
    heapGet (heapSet (getEmptyDirectoriesAlloc 1 [["a"], ["b"]]).2
      (getEmptyDirectoriesAlloc 1 [["a"], ["b"]]).1 ["x"]) 1 = heapGet [["a"], ["b"]] 1 :=
  getter_copies_are_isolated [["a"], ["b"]] 0 1 ["x"] (by decide) (by decide)

theorem createScanJobOp_nofault (status : String) (prog : Nat) (st : St)
    (h : st.faults = []) :
    createScanJobOp status prog st = .ok
      ({ id := idOf st.db.nextId, status := status, progress := prog, error := none },
       { st with db :=
           { st.db with
               jobs := st.db.jobs ++
                 [{ id := idOf st.db.nextId, status := status, progress := prog, error := none }],
               nextId := st.db.nextId + 1 } }) := by
  unfold createScanJobOp
  rw [popFault_nil st h]
  rfl

theorem updateScanJobOp_nofault (id : String) (u : ScanJobUpdate) (st : St)
    (h : st.faults = []) :
    updateScanJobOp id u st = .ok
      { st with db :=
          { st.db with jobs := st.db.jobs.map (fun j =>
              if j.id == id then applyScanJobUpdate u j else j) } } := by
  unfold updateScanJobOp
  rw [popFault_nil st h]
  rfl

/-- C9: `scanDirectory` contains every failure at its own level, so a scan
whose root listing fails still runs both detection sweeps and marks its
ScanJob completed with progress 100 instead of error. -/
theorem scan_completes_on_unreadable_root (fuel : Nat) (fs : FS) (dir : String) (st : St)
    (hguard : st.currentScanJob = none) (hacc : fs.access dir = true)
    (hrd : fs.readdir dir = none) (hfaults : st.faults = []) :
    ∃ st', startScan fuel fs dir st = .ok st' ∧
      (∃ j ∈ st'.db.jobs, j.id = idOf st.db.nextId ∧ j.status = "completed" ∧
        j.progress = 100) ∧
      st'.deletedFiles = specDeletedIds fs st.db ∧
      st'.emptyDirectories = specEmptyIdsAmended fs st.db := by
  have hscan : ∀ (jid : String) (s : St), scanDirectory fuel fs dir jid none s = s := by
    intro jid s
    cases fuel with
    | zero => rfl
    | succ n => simp [scanDirectory, hrd]
  unfold startScan
  rw [hguard]
  simp only [hacc, Bool.not_true, Bool.false_eq_true, if_false]
  rw [createScanJobOp_nofault "scanning" 0 st hfaults]
  simp only []
  rw [hscan]
  simp only [checkForDeletedFiles, checkForEmptyDirectories, getAllFiles]
  rw [updateScanJobOp_nofault _ _ _ (by exact hfaults)]
  simp only []
  refine ⟨_, rfl, ?_, ?_, ?_⟩
  · refine ⟨applyScanJobUpdate
      { status := some "completed", progress := some 100, error := none }
      { id := idOf st.db.nextId, status := "scanning", progress := 0, error := none }, ?_,
      rfl, rfl, rfl⟩
    show _ ∈ (st.db.jobs ++
      [({ id := idOf st.db.nextId, status := "scanning", progress := 0,
          error := none } : ScanJobRec)]).map _
    refine List.mem_map.mpr ⟨_, List.mem_append_right _ (List.mem_singleton_self _), ?_⟩
    simp
  · show deletedSweepLoop fs st.db.files [] = specDeletedIds fs st.db
    simp [deletedSweepLoop_eq_filter, specDeletedIds]
  · show emptySweepLoop fs (getEmptyDirectoriesStore
      { st.db with
          jobs := st.db.jobs ++
            [{ id := idOf st.db.nextId, status := "scanning", progress := 0, error := none }],
          nextId := st.db.nextId + 1 }) [] = specEmptyIdsAmended fs st.db
    simp [emptySweepLoop_eq_filter, specEmptyIdsAmended, emptyDirOnDiskCheck_eq_amended,
      getEmptyDirectoriesStore]

/-- Witness for the amended C2 at a concrete one-file directory listing. -/
theorem batch_stats_recomputed_witness :
    ∃ st', batchProcessFiles exFS1 [exEntryA] "d" "d1" exSt2 = .ok st' ∧
      ∃ d' ∈ st'.db.dirs, d'.id = "d1" ∧
        d'.fileCount =
          (collectFileInfos exFS1 "d" (List.filter (fun e => e.isFile) [exEntryA])).length ∧
        d'.totalSize =
          ((collectFileInfos exFS1 "d" (List.filter (fun e => e.isFile) [exEntryA])).map
            (fun i => i.stats.size)).sum :=
  batch_stats_recomputed_for_nonempty_listing exFS1 [exEntryA] "d" "d1" exSt2 exDirD1
    rfl (List.mem_singleton_self exDirD1) rfl (by decide)

/-- Witness for C8's read-error conjunct at a concrete failing listing. -/
theorem findSubtitles_matches_spec_witness :
    findSubtitleFiles exFS4 "a/b.mp4" = [] :=
  findSubtitles_matches_spec.2.2 exFS4 "a/b.mp4" rfl

def exFS9 : FS :=
  { access := fun _ => true, stat := fun _ => none, readdir := fun _ => none }

/-- Witness for C9: a root that passes the access check but whose listing
fails still yields a completed scan at progress 100 with both sweeps run. -/
theorem scan_completes_on_unreadable_root_witness :
    ∃ st', startScan 1 exFS9 "root" exSt5 = .ok st' ∧
      (∃ j ∈ st'.db.jobs, j.id = idOf exSt5.db.nextId ∧ j.status = "completed" ∧
        j.progress = 100) ∧
      st'.deletedFiles = specDeletedIds exFS9 exSt5.db ∧
      st'.emptyDirectories = specEmptyIdsAmended exFS9 exSt5.db :=
  scan_completes_on_unreadable_root 1 exFS9 "root" exSt5 rfl rfl rfl rfl

end FileFlicker
